import Mathlib

/-!
Verification development for the frag-utils polling / submission module
(`common.py`).  The Python source is shallowly embedded below: the database
tables touched by `submit_assignment`, `request_evaluation` and the content
store are modelled as explicit lists inside a `DB` state record, the SHA-256
digest of `hashlib` is implemented directly over byte lists with arithmetic
modulo 2^32, and the polling loop `poller` is modelled as a fuel-indexed
recursion over discrete one-second ticks with an externally supplied
cancellation-signal trace.
-/

namespace Frag

/-! ## SHA-256 (`hashlib.sha256(data).digest()`)

Bytes are `Nat`s below 256, words are `Nat`s kept below `M32 = 2^32` by
explicit reduction after every arithmetic step, exactly as the 32-bit
machine arithmetic of the reference algorithm behaves. -/

/-- The SHA-256 word modulus, 2^32. -/
def M32 : Nat := 4294967296

/-- Right rotation of a 32-bit word by `n` bits. -/
def rotr32 (n x : Nat) : Nat := ((x >>> n) ||| (x <<< (32 - n))) % M32

/-- SHA-256 choice function `Ch(x,y,z)`. -/
def shaCh (x y z : Nat) : Nat := (x &&& y) ^^^ ((x ^^^ (M32 - 1)) &&& z)

/-- SHA-256 majority function `Maj(x,y,z)`. -/
def shaMaj (x y z : Nat) : Nat := (x &&& y) ^^^ (x &&& z) ^^^ (y &&& z)

/-- SHA-256 big sigma 0. -/
def bigSigma0 (x : Nat) : Nat := (rotr32 2 x) ^^^ (rotr32 13 x) ^^^ (rotr32 22 x)

/-- SHA-256 big sigma 1. -/
def bigSigma1 (x : Nat) : Nat := (rotr32 6 x) ^^^ (rotr32 11 x) ^^^ (rotr32 25 x)

/-- SHA-256 small sigma 0 (message schedule). -/
def smallSigma0 (x : Nat) : Nat := (rotr32 7 x) ^^^ (rotr32 18 x) ^^^ (x >>> 3)

/-- SHA-256 small sigma 1 (message schedule). -/
def smallSigma1 (x : Nat) : Nat := (rotr32 17 x) ^^^ (rotr32 19 x) ^^^ (x >>> 10)

/-- The 64 SHA-256 round constants (written in decimal). -/
def shaK : List Nat :=
  [1116352408, 1899447441, 3049323471, 3921009573,
   961987163, 1508970993, 2453635748, 2870763221,
   3624381080, 310598401, 607225278, 1426881987,
   1925078388, 2162078206, 2614888103, 3248222580,
   3835390401, 4022224774, 264347078, 604807628,
   770255983, 1249150122, 1555081692, 1996064986,
   2554220882, 2821834349, 2952996808, 3210313671,
   3336571891, 3584528711, 113926993, 338241895,
   666307205, 773529912, 1294757372, 1396182291,
   1695183700, 1986661051, 2177026350, 2456956037,
   2730485921, 2820302411, 3259730800, 3345764771,
   3516065817, 3600352804, 4094571909, 275423344,
   430227734, 506948616, 659060556, 883997877,
   958139571, 1322822218, 1537002063, 1747873779,
   1955562222, 2024104815, 2227730452, 2361852424,
   2428436474, 2756734187, 3204031479, 3329325298]

/-- The SHA-256 initial hash value (written in decimal). -/
def shaH0 : List Nat :=
  [1779033703, 3144134277, 1013904242, 2773480762,
   1359893119, 2600822924, 528734635, 1541459225]

/-- Write `n` as `len` big-endian bytes. -/
def natToBytesBE : Nat → Nat → List Nat
  | 0, _ => []
  | len + 1, n => (n >>> (8 * len)) % 256 :: natToBytesBE len n

/-- SHA-256 padding: append `0x80`, zero bytes to 56 mod 64, then the
bit length as 8 big-endian bytes. -/
def shaPad (msg : List Nat) : List Nat :=
  msg ++ [128] ++ List.replicate ((64 - (msg.length + 9) % 64) % 64) 0
      ++ natToBytesBE 8 (msg.length * 8)

/-- Group bytes into big-endian 32-bit words. -/
def bytesToWords : List Nat → List Nat
  | b0 :: b1 :: b2 :: b3 :: rest =>
      ((b0 <<< 24) ||| (b1 <<< 16) ||| (b2 <<< 8) ||| b3) % M32
        :: bytesToWords rest
  | _ => []

/-- Serialize one 32-bit word as 4 big-endian bytes. -/
def wordToBytes (w : Nat) : List Nat :=
  [(w >>> 24) &&& 255, (w >>> 16) &&& 255, (w >>> 8) &&& 255, w &&& 255]

/-- Split a word list into 16-word chunks (one per 512-bit block). -/
def chunk16 : List Nat → List (List Nat)
  | a :: b :: c :: d :: e :: f :: g :: h ::
    i :: j :: k :: l :: m :: n :: o :: p :: rest =>
      [a, b, c, d, e, f, g, h, i, j, k, l, m, n, o, p] :: chunk16 rest
  | _ => []

/-- Extend the message schedule by `n` further words. -/
def extendSchedule : Nat → List Nat → List Nat
  | 0, ws => ws
  | n + 1, ws =>
      extendSchedule n (ws ++
        [(ws.getD (ws.length - 16) 0 + smallSigma0 (ws.getD (ws.length - 15) 0)
          + ws.getD (ws.length - 7) 0 + smallSigma1 (ws.getD (ws.length - 2) 0))
         % M32])

/-- One SHA-256 compression round; `kw` is the precomputed `k[i] + w[i]`
value of the round. -/
def shaRound (st : List Nat) (kw : Nat) : List Nat :=
  match st with
  | [a, b, c, d, e, f, g, h] =>
      let t1 := (h + bigSigma1 e + shaCh e f g + kw) % M32
      let t2 := (bigSigma0 a + shaMaj a b c) % M32
      [(t1 + t2) % M32, a, b, c, (d + t1) % M32, e, f, g]
  | _ => st

/-- Compress one 16-word chunk into the running hash. -/
def compressChunk (h : List Nat) (chunk : List Nat) : List Nat :=
  let ws := extendSchedule 48 chunk
  let kws := (shaK.zip ws).map (fun p => (p.1 + p.2) % M32)
  let st := kws.foldl shaRound h
  (h.zip st).map (fun p => (p.1 + p.2) % M32)

/-- SHA-256 digest of a byte list, as the 32-byte digest list
(`hashlib.sha256(data).digest()` for `bytes` input). -/
def sha256 (data : List Nat) : List Nat :=
  List.flatten (((chunk16 (bytesToWords (shaPad data))).foldl
      compressChunk shaH0).map wordToBytes)

/-! ## Timestamps

`submit_assignment` normalizes a supplied timestamp with
`to_utc_strip(timestamp)`: convert to UTC (`astimezone(utc)`), which keeps
the absolute instant, then drop the timezone info.  A timezone-aware local
datetime is modelled by the absolute instant it denotes (seconds plus the
microsecond component) together with its UTC offset; the normalized naive
UTC datetime is modelled by the instant alone. -/

/-- A naive UTC datetime: absolute second plus microsecond component
(`datetime.replace(microsecond=...)` replaces the `micro` field). -/
structure Stamp where
  sec : Int
  micro : Nat
  deriving DecidableEq, Repr

/-- A timezone-aware local datetime: the absolute instant it denotes plus
its UTC offset in minutes. -/
structure LocalDT where
  sec : Int
  micro : Nat
  tzMin : Int
  deriving DecidableEq, Repr

/-- The operation `datetime.replace(microsecond=m)`. -/
def Stamp.replaceMicro (s : Stamp) (m : Nat) : Stamp := ⟨s.sec, m⟩

/-- The map `to_utc(local) = local.astimezone(utc)`: same instant, UTC offset 0. -/
def to_utc (loc : LocalDT) : LocalDT := ⟨loc.sec, loc.micro, 0⟩

/-- The map `to_utc_strip(local) = to_utc(local).replace(tzinfo=None)`. -/
def to_utc_strip (loc : LocalDT) : Stamp := ⟨(to_utc loc).sec, (to_utc loc).micro⟩

/-! ## Database state

The tables touched by the embedded operations, plus the two observable
side channels (collision warnings logged by `submit_assignment` and
`notify eval_req` events). -/

/-- One row of the `submission` table: `stamp` is NULL for unstamped
insertions. -/
structure SubRow where
  id : Nat
  author : Int
  asgn : Int
  stamp : Option Stamp
  deriving DecidableEq, Repr

/-- One row of the `current_suite` table. -/
structure SuiteRow where
  asgn : Int
  id : Nat
  active : Bool
  deriving DecidableEq, Repr

/-- An in-memory file of a submission (`File` with byte `data`). -/
structure FileRec where
  name : String
  data : List Nat
  deriving DecidableEq, Repr

/-- The `eval_req` argument of `submit_assignment` (`class EvalReq(Enum)`). -/
inductive EvalReq where
  | Yes
  | No
  | TeacherInactiveOnly
  deriving DecidableEq, Repr

/-- The database state visible to the embedded operations.  `nextId` is the
sequence backing the store-assigned `submission.id`; `warnings` counts
collision-retry warnings logged by `submit_assignment`; `notifies` counts
`notify eval_req` events. -/
structure DB where
  submissions : List SubRow
  nextId : Nat
  contents : List (List Nat × List Nat)
  submissionIn : List (Nat × Int × String × List Nat)
  evalReqs : List (Nat × Nat)
  currentSuite : List SuiteRow
  teachers : List Int
  warnings : Nat
  notifies : Nat
  deriving DecidableEq, Repr

/-- An empty database; the id sequence starts at 1 as a serial column does. -/
def emptyDB : DB := ⟨[], 1, [], [], [], [], [], 0, 0⟩

/-! ## Embedded operations -/

/-- Does the `submission` table hold a row conflicting with the unique key
`(author, assignment_id, stamp)`? -/
def hasConflict (subs : List SubRow) (author asgn : Int) (st : Stamp) : Bool :=
  subs.any fun r => decide (r.author = author ∧ r.asgn = asgn ∧ r.stamp = some st)

/-- The statement `insert into submission (author, assignment_id, stamp) values (...)
on conflict do nothing returning (id)`: on conflict the table is unchanged
and no id is returned; otherwise a fresh row is appended and its
store-assigned id returned. -/
def insertStamped (db : DB) (author asgn : Int) (st : Stamp) : DB × Option Nat :=
  if hasConflict db.submissions author asgn st then (db, none)
  else ({db with
          submissions := db.submissions ++ [⟨db.nextId, author, asgn, some st⟩],
          nextId := db.nextId + 1},
        some db.nextId)

/-- The retry loop of `submit_assignment` (`for retry in range(10)`): try
the current stamp; on success return the new id, on conflict log a warning,
set the microsecond component to `retry + 1` and try again.  `remaining` is
the number of loop iterations left, `retry` the current 0-based index. -/
def submitAttempts (author asgn : Int) :
    Stamp → Nat → Nat → DB → DB × Option Nat
  | _, _, 0, db => (db, none)
  | st, retry, remaining + 1, db =>
      match insertStamped db author asgn st with
      | (db1, some sid) => (db1, some sid)
      | (db1, none) =>
          submitAttempts author asgn (st.replaceMicro (retry + 1)) (retry + 1)
            remaining {db1 with warnings := db1.warnings + 1}

/-- The content-insertion step (`ContentStore.put`): compute the SHA-256
digest, `insert into content (sha, data) values (...) on conflict do
nothing`, and hand the digest back to the caller. -/
def contentPut (db : DB) (data : List Nat) : DB × List Nat :=
  let d := sha256 data
  if db.contents.any (fun r => decide (r.1 = d)) then (db, d)
  else ({db with contents := db.contents ++ [(d, data)]}, d)

/-- The per-file loop of `submit_assignment`: store the content of each file and
append its `submission_in` association row. -/
def storeFiles (asgn : Int) (sid : Nat) : List FileRec → DB → DB
  | [], db => db
  | f :: fs, db =>
      let p := contentPut db f.data
      storeFiles asgn sid fs
        {p.1 with submissionIn := p.1.submissionIn ++ [(sid, asgn, f.name, p.2)]}

/-- The function `request_evaluation`: select the current not-active suite of the assignment;
if none, return silently; otherwise insert an `eval_req` row and
`notify eval_req`. -/
def request_evaluation (asgn : Int) (sid : Nat) (db : DB) : DB :=
  match db.currentSuite.find? (fun r => r.asgn == asgn && !r.active) with
  | none => db
  | some su =>
      {db with evalReqs := db.evalReqs ++ [(sid, su.id)],
               notifies := db.notifies + 1}

/-- The dispatch decision at the end of `submit_assignment`: escalate
`TeacherInactiveOnly` to `Yes` when the author is a teacher, then dispatch
exactly when the effective mode is `Yes`. -/
def maybe_dispatch (asgn : Int) (sid : Nat) (author : Int) (evalReq : EvalReq)
    (db : DB) : DB :=
  let er := if evalReq = EvalReq.TeacherInactiveOnly ∧ author ∈ db.teachers
            then EvalReq.Yes else evalReq
  if er = EvalReq.Yes then request_evaluation asgn sid db else db

/-- The function `submit_assignment`: insert the submission row (with the 10-attempt
collision-retry loop when a timestamp is supplied, unconditionally when
not), `assert sid` (which fails when no attempt succeeded, and also when
the store hands back the falsy id 0), store the files, then run the
dispatch decision.  A failed assertion is modelled as `Except.error`. -/
def submit_assignment (asgn author : Int) (files : List FileRec)
    (timestamp : Option LocalDT) (evalReq : EvalReq) (db : DB) :
    Except String DB :=
  let step : DB × Option Nat :=
    match timestamp with
    | some ts => submitAttempts author asgn (to_utc_strip ts) 0 10 db
    | none =>
        ({db with
            submissions := db.submissions ++ [⟨db.nextId, author, asgn, none⟩],
            nextId := db.nextId + 1},
         some db.nextId)
  match step with
  | (_, none) => .error ("assertion failed: sid")
  | (db1, some sid) =>
      if sid = 0 then .error ("assertion failed: sid")
      else .ok (maybe_dispatch asgn sid author evalReq (storeFiles asgn sid files db1))

/-- The stamp tried by the `k`-th insertion attempt (0-based) of the retry
loop: the normalized stamp itself first, then the stamp with its
microsecond component set to `k`. -/
def attemptStamp (st0 : Stamp) : Nat → Stamp
  | 0 => st0
  | k + 1 => ⟨st0.sec, k + 1⟩

/-! ## `File.__init__` (in-memory string data branch)

The branch `elif isinstance(data, str): self.data = data.encode(data,
utf-8)` passes the data string itself in the `encoding` position of
`str.encode` and the literal utf-8 in the `errors` position.  The Python
codec registry is external library state; it is modelled by an abstract
partial `lookup` map from codec names to encoding functions, and
`str.encode` raises a lookup error when the name is unknown. -/

/-- Python `str.encode(encoding, errors)` against an abstract codec registry
`lookup`; the `errors` handler is only consulted on encoding errors, which
the abstract codecs never raise. -/
def strEncode (lookup : String → Option (String → List Nat))
    (s encoding _errors : String) : Except String (List Nat) :=
  match lookup encoding with
  | none => .error ("unknown encoding: " ++ encoding)
  | some enc => .ok (enc s)

/-- The `File.__init__` branches that build `self.data` from in-memory
`data` (no `path` given): a `str` is passed through
`data.encode(data, utf-8)` — note the data string itself stands in the
encoding position — and `bytes` are stored as they are. -/
def fileInitData (lookup : String → Option (String → List Nat))
    (name : String) (data : String ⊕ List Nat) : Except String FileRec :=
  match data with
  | .inr bs => .ok ⟨name, bs⟩
  | .inl s =>
      match strEncode lookup s s ("utf-8") with
      | .error e => .error e
      | .ok bs => .ok ⟨name, bs⟩

/-! ## `BaseConfig.interval`

`interval()` accepts an `int` as is; a `str` must fully match the regex
`([0-9]+) *(s|m|h)` and is scaled by the suffix; anything else raises. -/

/-- A raw YAML value in the `interval` slot of the configuration:
an integer, a string, the key being absent (defaulted to 300), or a value
of any other type. -/
inductive RawVal where
  | int (n : Int)
  | str (s : String)
  | missing
  | other
  deriving DecidableEq, Repr

/-- Digits-to-number conversion (`int(m[1])`). -/
def digitsToNat (ds : List Char) : Nat :=
  ds.foldl (fun a c => a * 10 + (c.toNat - 48)) 0

/-- Full match of `RE_INTERVAL = ([0-9]+) *(s|m|h)` and the scaling
`int(m[1]) * {s: 1, m: 60, h: 3600}[m[2]]`: one or more ASCII digits, any
number of spaces, then exactly one of the three unit letters, consuming the
whole string. -/
def parseInterval (s : String) : Option Nat :=
  let cs := s.toList
  let ds := cs.takeWhile Char.isDigit
  let rest := (cs.dropWhile Char.isDigit).dropWhile (fun c => c = ' ')
  if ds.isEmpty then none
  else
    match rest with
    | [u] =>
        if u = 's' then some (digitsToNat ds)
        else if u = 'm' then some (digitsToNat ds * 60)
        else if u = 'h' then some (digitsToNat ds * 3600)
        else none
    | _ => none

/-- The method `BaseConfig.interval()`: `raw.get("interval", 300)`, accepted as is for
an `int`, parsed via `RE_INTERVAL` for a `str`, raising otherwise. -/
def interval : RawVal → Except String Int
  | .int n => .ok n
  | .missing => .ok 300
  | .str s =>
      match parseInterval s with
      | some n => .ok (n : Int)
      | none => .error ("Invalid interval specification: " ++ s)
  | .other => .error ("Not an interval")

/-! ## `poller`

The polling loop is modelled over discrete one-second ticks.  The
cancellation flag set by the SIGTERM handler is an external input trace
`sig : Nat → Bool` giving the value of the flag at each tick; the per-cycle
reloaded configuration is `rawAt : Nat → RawVal` and the wall time consumed
by the `poll` callback of each cycle is `elapsedAt : Nat → Nat` (whole
ticks).  The loop needs fuel to be a total function: `fuelOut` marks runs
that did not stop within the allotted cycles and is distinct from the
`stopped` and `err` outcomes the theorems talk about. -/

/-- Outcome of a `poller` run: normal return (with the number of completed
`poll` callbacks and the tick at which the loop returned), fuel exhaustion,
or a propagated exception (with the callback count and tick at the raise
point). -/
inductive PollerResult where
  | stopped (polls : Nat) (tick : Nat)
  | fuelOut (polls : Nat) (tick : Nat)
  | err (msg : String) (polls : Nat) (tick : Nat)
  deriving DecidableEq, Repr

/-- The sleep loop `for _ in range(sleep_for)`: before each one-second
sleep, return when the cancellation flag or the oneshot flag is set.
Returns the number of ticks actually slept and whether the loop returned
early. -/
def sleepTicks (oneshot : Bool) (sig : Nat → Bool) :
    Nat → Nat → Nat × Bool
  | 0, _ => (0, false)
  | n + 1, t =>
      if sig t || oneshot then (0, true)
      else
        let p := sleepTicks oneshot sig n (t + 1)
        (p.1 + 1, p.2)

/-- The `while True` loop of `poller`: reload the configuration, read the
interval (its exception propagates before the callback runs), run the
`poll` callback, sleep the remaining part of the interval with per-tick
cancellation checks, and re-check the flags after the sleep. -/
def pollerAux (oneshot : Bool) (sig : Nat → Bool) (rawAt : Nat → RawVal)
    (elapsedAt : Nat → Nat) :
    Nat → Nat → Nat → Nat → PollerResult
  | 0, _, t, polls => .fuelOut polls t
  | fuel + 1, cycle, t, polls =>
      match interval (rawAt cycle) with
      | .error e => .err e polls t
      | .ok i =>
          let e := elapsedAt cycle
          let t1 := t + e
          let sf := (i - (e : Int)).toNat
          let p := sleepTicks oneshot sig sf t1
          if p.2 then .stopped (polls + 1) (t1 + p.1)
          else if sig (t1 + p.1) || oneshot then .stopped (polls + 1) (t1 + p.1)
          else pollerAux oneshot sig rawAt elapsedAt fuel (cycle + 1)
                 (t1 + p.1) (polls + 1)

/-- A cancellation-flag trace is persistent: the SIGTERM handler only ever
sets the flag, so once raised it stays raised. -/
def SigPersistent (sig : Nat → Bool) : Prop :=
  ∀ a b : Nat, a ≤ b → sig a = true → sig b = true

/-! ## Digest length lemmas -/

theorem shaRound_length (st : List Nat) (kw : Nat) (h : st.length = 8) :
    (shaRound st kw).length = 8 := by
  rcases st with _ | ⟨a, _ | ⟨b, _ | ⟨c, _ | ⟨d, _ | ⟨e, _ | ⟨f, _ | ⟨g, _ |
    ⟨hh, _ | ⟨x, st⟩⟩⟩⟩⟩⟩⟩⟩⟩ <;> simp_all [shaRound]

theorem foldl_shaRound_length (kws : List Nat) :
    ∀ st : List Nat, st.length = 8 → (kws.foldl shaRound st).length = 8 := by
  induction kws with
  | nil => intro st h; simpa using h
  | cons k ks ih => intro st h; exact ih _ (shaRound_length st k h)

theorem compressChunk_length (h c : List Nat) (hl : h.length = 8) :
    (compressChunk h c).length = 8 := by
  simp only [compressChunk, List.length_map, List.length_zip]
  rw [foldl_shaRound_length _ _ hl, hl]
  decide

theorem foldl_compress_length (cs : List (List Nat)) :
    ∀ h : List Nat, h.length = 8 → (cs.foldl compressChunk h).length = 8 := by
  induction cs with
  | nil => intro h hl; simpa using hl
  | cons c cs ih => intro h hl; exact ih _ (compressChunk_length h c hl)

theorem length_flatten_wordToBytes (hs : List Nat) :
    (List.flatten (hs.map wordToBytes)).length = 4 * hs.length := by
  induction hs with
  | nil => rfl
  | cons w ws ih =>
      simp only [List.map_cons, List.flatten_cons, List.length_append, ih,
        wordToBytes, List.length_cons, List.length_nil, List.length_map]
      omega

/-- A SHA-256 digest is 32 bytes (256 bits) long, whatever the input. -/
theorem sha256_length (data : List Nat) : (sha256 data).length = 32 := by
  have h8 : shaH0.length = 8 := rfl
  rw [sha256, length_flatten_wordToBytes,
    foldl_compress_length (chunk16 (bytesToWords (shaPad data))) shaH0 h8]

/-! ## State-preservation lemmas -/

theorem contentPut_submissions (db : DB) (d : List Nat) :
    ((contentPut db d).1).submissions = db.submissions := by
  simp only [contentPut]; split <;> rfl

theorem contentPut_nextId (db : DB) (d : List Nat) :
    ((contentPut db d).1).nextId = db.nextId := by
  simp only [contentPut]; split <;> rfl

theorem contentPut_warnings (db : DB) (d : List Nat) :
    ((contentPut db d).1).warnings = db.warnings := by
  simp only [contentPut]; split <;> rfl

theorem storeFiles_fields (asgn : Int) (sid : Nat) (files : List FileRec) :
    ∀ db : DB, (storeFiles asgn sid files db).submissions = db.submissions ∧
      (storeFiles asgn sid files db).nextId = db.nextId ∧
      (storeFiles asgn sid files db).warnings = db.warnings := by
  induction files with
  | nil => intro db; exact ⟨rfl, rfl, rfl⟩
  | cons f fs ih =>
      intro db
      obtain ⟨h1, h2, h3⟩ :=
        ih {(contentPut db f.data).1 with
              submissionIn := (contentPut db f.data).1.submissionIn ++
                [(sid, asgn, f.name, (contentPut db f.data).2)]}
      refine ⟨?_, ?_, ?_⟩
      · rw [storeFiles, h1]; exact contentPut_submissions db f.data
      · rw [storeFiles, h2]; exact contentPut_nextId db f.data
      · rw [storeFiles, h3]; exact contentPut_warnings db f.data

theorem request_evaluation_fields (asgn : Int) (sid : Nat) (db : DB) :
    (request_evaluation asgn sid db).submissions = db.submissions ∧
      (request_evaluation asgn sid db).nextId = db.nextId ∧
      (request_evaluation asgn sid db).warnings = db.warnings := by
  simp only [request_evaluation]
  refine ⟨?_, ?_, ?_⟩ <;> (split <;> rfl)

theorem maybe_dispatch_fields (asgn : Int) (sid : Nat) (author : Int)
    (er : EvalReq) (db : DB) :
    (maybe_dispatch asgn sid author er db).submissions = db.submissions ∧
      (maybe_dispatch asgn sid author er db).nextId = db.nextId ∧
      (maybe_dispatch asgn sid author er db).warnings = db.warnings := by
  obtain ⟨h1, h2, h3⟩ := request_evaluation_fields asgn sid db
  simp only [maybe_dispatch]
  refine ⟨?_, ?_, ?_⟩
  · split
    · exact h1
    · split
      · exact h1
      · rfl
  · split
    · exact h2
    · split
      · exact h2
      · rfl
  · split
    · exact h3
    · split
      · exact h3
      · rfl

/-! ## Conflict and retry-step lemmas -/

theorem hasConflict_false_of_clean (subs : List SubRow) (author asgn : Int)
    (st : Stamp) (h : ∀ r ∈ subs, ¬(r.author = author ∧ r.asgn = asgn)) :
    hasConflict subs author asgn st = false := by
  simp only [hasConflict, List.any_eq_false, decide_eq_true_eq]
  intro r hr hm
  exact h r hr ⟨hm.1, hm.2.1⟩

theorem hasConflict_append (l1 l2 : List SubRow) (author asgn : Int)
    (st : Stamp) :
    hasConflict (l1 ++ l2) author asgn st =
      (hasConflict l1 author asgn st || hasConflict l2 author asgn st) := by
  simp [hasConflict, List.any_append]

theorem submitAttempts_ok (author asgn : Int) (st : Stamp)
    (retry remaining : Nat) (db : DB)
    (h : hasConflict db.submissions author asgn st = false) :
    submitAttempts author asgn st retry (remaining + 1) db =
      ({db with
          submissions := db.submissions ++ [⟨db.nextId, author, asgn, some st⟩],
          nextId := db.nextId + 1},
       some db.nextId) := by
  simp only [submitAttempts, insertStamped, h]
  rfl

theorem submitAttempts_retry (author asgn : Int) (st : Stamp)
    (retry remaining : Nat) (db : DB)
    (h : hasConflict db.submissions author asgn st = true) :
    submitAttempts author asgn st retry (remaining + 1) db =
      submitAttempts author asgn (st.replaceMicro (retry + 1)) (retry + 1)
        remaining {db with warnings := db.warnings + 1} := by
  simp only [submitAttempts, insertStamped, h]
  rfl

/-! ## Claim theorems -/

/-- C3: storing the same byte sequence twice through the content-insertion
step yields the digest `sha256 data` both times (a deterministic function
of the bytes), the second store leaves the state unchanged, exactly one
content row keyed by that digest is stored, and the digest is 256 bits
(32 bytes) long. -/
theorem contentPut_new (db : DB) (data : List Nat)
    (h : db.contents.any (fun r => decide (r.1 = sha256 data)) = false) :
    contentPut db data =
      ({db with contents := db.contents ++ [(sha256 data, data)]},
       sha256 data) := by
  simp only [contentPut, h]
  rfl

theorem contentPut_noop (db : DB) (data : List Nat)
    (h : db.contents.any (fun r => decide (r.1 = sha256 data)) = true) :
    contentPut db data = (db, sha256 data) := by
  simp only [contentPut, h]
  rfl

theorem contentStore_put_idempotent (db0 : DB) (data : List Nat)
    (hfresh : ∀ r ∈ db0.contents, r.1 ≠ sha256 data) :
    (contentPut db0 data).2 = sha256 data ∧
    (contentPut (contentPut db0 data).1 data).2 = sha256 data ∧
    (contentPut (contentPut db0 data).1 data).1 = (contentPut db0 data).1 ∧
    (contentPut db0 data).1.contents = db0.contents ++ [(sha256 data, data)] ∧
    (contentPut (contentPut db0 data).1 data).1.contents.countP
      (fun r => decide (r.1 = sha256 data)) = 1 ∧
    (sha256 data).length = 32 := by
  have hany : db0.contents.any (fun r => decide (r.1 = sha256 data)) = false := by
    simp only [List.any_eq_false, decide_eq_true_eq]
    exact hfresh
  have h1 := contentPut_new db0 data hany
  have hany2 : ((contentPut db0 data).1.contents.any
      (fun r => decide (r.1 = sha256 data))) = true := by
    rw [h1]
    simp [List.any_append]
  have h2 := contentPut_noop (contentPut db0 data).1 data hany2
  refine ⟨by rw [h1], by rw [h2], by rw [h2], by rw [h1], ?_, sha256_length data⟩
  rw [h2, h1]
  simp only [List.countP_append]
  rw [List.countP_eq_zero.mpr ?_]
  · simp [List.countP_cons]
  · simpa using hfresh

/-- C3 witness at concrete input. -/
theorem contentStore_put_idempotent_witness :
    (contentPut emptyDB []).2 = sha256 [] ∧
    (contentPut (contentPut emptyDB []).1 []).2 = sha256 [] ∧
    (contentPut (contentPut emptyDB []).1 []).1 = (contentPut emptyDB []).1 ∧
    (contentPut emptyDB []).1.contents = emptyDB.contents ++ [(sha256 [], [])] ∧
    (contentPut (contentPut emptyDB []).1 []).1.contents.countP
      (fun r => decide (r.1 = sha256 [])) = 1 ∧
    (sha256 []).length = 32 :=
  contentStore_put_idempotent emptyDB [] (by simp [emptyDB])

/-- C2: under mode `TeacherInactiveOnly`, a non-teacher author causes no
`eval_req` row and no notification (the state is untouched) for every suite
state, while a teacher author with a current not-active suite causes
exactly one new `eval_req` row and exactly one notification. -/
theorem maybe_dispatch_teacher_only (db : DB) (asgn : Int) (sid : Nat)
    (author : Int) :
    (author ∉ db.teachers →
      maybe_dispatch asgn sid author EvalReq.TeacherInactiveOnly db = db) ∧
    (∀ su : SuiteRow, author ∈ db.teachers →
      db.currentSuite.find? (fun r => r.asgn == asgn && !r.active) = some su →
      (maybe_dispatch asgn sid author EvalReq.TeacherInactiveOnly db).evalReqs
          = db.evalReqs ++ [(sid, su.id)] ∧
      (maybe_dispatch asgn sid author EvalReq.TeacherInactiveOnly db).notifies
          = db.notifies + 1) := by
  constructor
  · intro hna
    simp [maybe_dispatch, hna]
  · intro su hmem hfind
    simp [maybe_dispatch, hmem, request_evaluation, hfind]

/-- A concrete database for the C2 witness: author 5 is a teacher, author 7
is not, and assignment 2 has a pending (not active) suite 11. -/
def dbC2 : DB :=
  {emptyDB with teachers := [5], currentSuite := [⟨2, 11, false⟩]}

/-- C2 witness at concrete inputs (one per branch of the claim). -/
theorem maybe_dispatch_teacher_only_witness :
    maybe_dispatch 2 9 7 EvalReq.TeacherInactiveOnly dbC2 = dbC2 ∧
    ((maybe_dispatch 2 9 5 EvalReq.TeacherInactiveOnly dbC2).evalReqs
        = dbC2.evalReqs ++ [(9, 11)] ∧
     (maybe_dispatch 2 9 5 EvalReq.TeacherInactiveOnly dbC2).notifies
        = dbC2.notifies + 1) :=
  ⟨(maybe_dispatch_teacher_only dbC2 2 9 7).1 (by decide),
   (maybe_dispatch_teacher_only dbC2 2 9 5).2 ⟨2, 11, false⟩ (by decide)
     (by decide)⟩

/-- C7: when the dispatch decision proceeds (mode `Yes`, or mode
`TeacherInactiveOnly` with a teacher author) but the assignment has no
current not-active suite, nothing is inserted, nothing is notified, and
the call returns normally with the state unchanged. -/
theorem maybe_dispatch_no_pending_suite (db : DB) (asgn : Int) (sid : Nat)
    (author : Int) (mode : EvalReq)
    (hmode : mode = EvalReq.Yes ∨
      (mode = EvalReq.TeacherInactiveOnly ∧ author ∈ db.teachers))
    (hns : db.currentSuite.find? (fun r => r.asgn == asgn && !r.active) = none) :
    maybe_dispatch asgn sid author mode db = db := by
  have hre : request_evaluation asgn sid db = db := by
    simp [request_evaluation, hns]
  rcases hmode with h | ⟨h, hm⟩
  · subst h
    simp [maybe_dispatch, hre]
  · subst h
    simp [maybe_dispatch, hm, hre]

/-- C7 witness at concrete input (teacher author, empty suite table). -/
theorem maybe_dispatch_no_pending_suite_witness :
    maybe_dispatch 2 9 5 EvalReq.TeacherInactiveOnly
      {emptyDB with teachers := [5]} = {emptyDB with teachers := [5]} :=
  maybe_dispatch_no_pending_suite {emptyDB with teachers := [5]} 2 9 5
    EvalReq.TeacherInactiveOnly (Or.inr ⟨rfl, by decide⟩) (by decide)

/-- C10: the string branch of `File.__init__` evaluates
`data.encode(data, utf-8)`, so the data string itself stands in the
encoding position; for every string that does not name a codec the
construction raises a lookup error and no `File` holding the UTF-8 bytes
(or any bytes at all) is produced. -/
theorem file_from_str_uses_data_as_encoding
    (lookup : String → Option (String → List Nat)) (name s : String)
    (h : lookup s = none) :
    fileInitData lookup name (.inl s) = .error ("unknown encoding: " ++ s) ∧
    ∀ bs : List Nat, fileInitData lookup name (.inl s) ≠ .ok ⟨name, bs⟩ := by
  have he : fileInitData lookup name (.inl s) =
      .error ("unknown encoding: " ++ s) := by
    simp [fileInitData, strEncode, h]
  refine ⟨he, fun bs hb => ?_⟩
  rw [he] at hb
  cases hb

/-- C10 witness: a registry knowing only the utf-8 codec, and the ordinary
textual data string hello. -/
theorem file_from_str_uses_data_as_encoding_witness :
    fileInitData
        (fun e => if e = "utf-8" then some (fun _ => []) else none)
        ("f.txt") (.inl ("hello"))
      = .error ("unknown encoding: " ++ "hello") ∧
    ∀ bs : List Nat,
      fileInitData
          (fun e => if e = "utf-8" then some (fun _ => []) else none)
          ("f.txt") (.inl ("hello"))
        ≠ .ok ⟨"f.txt", bs⟩ :=
  file_from_str_uses_data_as_encoding
    (fun e => if e = "utf-8" then some (fun _ => []) else none)
    ("f.txt") ("hello") rfl

/-! ## Submission insertion: unstamped, first-attempt, retry, exhaustion -/

theorem submit_unstamped (asgn author : Int) (files : List FileRec)
    (er : EvalReq) (db : DB) (hid : 0 < db.nextId) :
    ∃ db1, submit_assignment asgn author files none er db = .ok db1 ∧
      db1.submissions = db.submissions ++ [⟨db.nextId, author, asgn, none⟩] ∧
      db1.nextId = db.nextId + 1 ∧
      db1.warnings = db.warnings := by
  have hsid : ¬(db.nextId = 0) := by omega
  obtain ⟨s1, s2, s3⟩ := storeFiles_fields asgn db.nextId files
    {db with submissions := db.submissions ++ [⟨db.nextId, author, asgn, none⟩],
             nextId := db.nextId + 1}
  obtain ⟨m1, m2, m3⟩ := maybe_dispatch_fields asgn db.nextId author er
    (storeFiles asgn db.nextId files
      {db with submissions := db.submissions ++ [⟨db.nextId, author, asgn, none⟩],
               nextId := db.nextId + 1})
  have heq : submit_assignment asgn author files none er db =
      .ok (maybe_dispatch asgn db.nextId author er
        (storeFiles asgn db.nextId files
          {db with
             submissions := db.submissions ++ [⟨db.nextId, author, asgn, none⟩],
             nextId := db.nextId + 1})) := by
    simp only [submit_assignment]
    rw [if_neg hsid]
  exact ⟨_, heq, by rw [m1, s1], by rw [m2, s2], by rw [m3, s3]⟩

theorem submit_stamped_ok (asgn author : Int) (files : List FileRec)
    (ts : LocalDT) (er : EvalReq) (db : DB)
    (h : hasConflict db.submissions author asgn (to_utc_strip ts) = false)
    (hid : 0 < db.nextId) :
    ∃ db1, submit_assignment asgn author files (some ts) er db = .ok db1 ∧
      db1.submissions = db.submissions ++
        [⟨db.nextId, author, asgn, some (to_utc_strip ts)⟩] ∧
      db1.nextId = db.nextId + 1 ∧
      db1.warnings = db.warnings := by
  have hsid : ¬(db.nextId = 0) := by omega
  have hstep := submitAttempts_ok author asgn (to_utc_strip ts) 0 9 db h
  obtain ⟨s1, s2, s3⟩ := storeFiles_fields asgn db.nextId files
    {db with
       submissions := db.submissions ++
         [⟨db.nextId, author, asgn, some (to_utc_strip ts)⟩],
       nextId := db.nextId + 1}
  obtain ⟨m1, m2, m3⟩ := maybe_dispatch_fields asgn db.nextId author er
    (storeFiles asgn db.nextId files
      {db with
         submissions := db.submissions ++
           [⟨db.nextId, author, asgn, some (to_utc_strip ts)⟩],
         nextId := db.nextId + 1})
  have heq : submit_assignment asgn author files (some ts) er db =
      .ok (maybe_dispatch asgn db.nextId author er
        (storeFiles asgn db.nextId files
          {db with
             submissions := db.submissions ++
               [⟨db.nextId, author, asgn, some (to_utc_strip ts)⟩],
             nextId := db.nextId + 1})) := by
    simp only [submit_assignment]
    rw [show (10 : Nat) = 9 + 1 from rfl, hstep]
    simp only [if_neg hsid]
  exact ⟨_, heq, by rw [m1, s1], by rw [m2, s2], by rw [m3, s3]⟩

theorem submit_stamped_second_ok (asgn author : Int) (files : List FileRec)
    (ts : LocalDT) (er : EvalReq) (db : DB)
    (h0 : hasConflict db.submissions author asgn (to_utc_strip ts) = true)
    (h1 : hasConflict db.submissions author asgn
      ⟨(to_utc_strip ts).sec, 1⟩ = false)
    (hid : 0 < db.nextId) :
    ∃ db2, submit_assignment asgn author files (some ts) er db = .ok db2 ∧
      db2.submissions = db.submissions ++
        [⟨db.nextId, author, asgn, some ⟨(to_utc_strip ts).sec, 1⟩⟩] ∧
      db2.nextId = db.nextId + 1 ∧
      db2.warnings = db.warnings + 1 := by
  have hsid : ¬(db.nextId = 0) := by omega
  have hstep0 := submitAttempts_retry author asgn (to_utc_strip ts) 0 9 db h0
  have hstep1 := submitAttempts_ok author asgn
    ((to_utc_strip ts).replaceMicro 1) 1 8
    {db with warnings := db.warnings + 1}
    (by simpa [Stamp.replaceMicro] using h1)
  obtain ⟨s1, s2, s3⟩ := storeFiles_fields asgn db.nextId files
    {db with
      submissions := db.submissions ++
        [⟨db.nextId, author, asgn, some ⟨(to_utc_strip ts).sec, 1⟩⟩],
      nextId := db.nextId + 1,
      warnings := db.warnings + 1}
  obtain ⟨m1, m2, m3⟩ := maybe_dispatch_fields asgn db.nextId author er
    (storeFiles asgn db.nextId files
      {db with
        submissions := db.submissions ++
          [⟨db.nextId, author, asgn, some ⟨(to_utc_strip ts).sec, 1⟩⟩],
        nextId := db.nextId + 1,
        warnings := db.warnings + 1})
  have heq : submit_assignment asgn author files (some ts) er db =
      .ok (maybe_dispatch asgn db.nextId author er
        (storeFiles asgn db.nextId files
          {db with
             submissions := db.submissions ++
               [⟨db.nextId, author, asgn, some ⟨(to_utc_strip ts).sec, 1⟩⟩],
             nextId := db.nextId + 1,
             warnings := db.warnings + 1})) := by
    simp only [submit_assignment]
    rw [show (10 : Nat) = 9 + 1 from rfl, hstep0,
      show (9 : Nat) = 8 + 1 from rfl, hstep1]
    simp only [Stamp.replaceMicro, if_neg hsid]
  exact ⟨_, heq, by rw [m1, s1], by rw [m2, s2], by rw [m3, s3]⟩

theorem submitAttempts_all_conflict (author asgn : Int) :
    ∀ (remaining retry : Nat) (st : Stamp) (db : DB),
      (∀ j < remaining, hasConflict db.submissions author asgn
        (if j = 0 then st else ⟨st.sec, retry + j⟩) = true) →
      (submitAttempts author asgn st retry remaining db).2 = none := by
  intro remaining
  induction remaining with
  | zero => intro retry st db _; rfl
  | succ r ih =>
      intro retry st db hconf
      have h0 : hasConflict db.submissions author asgn st = true := by
        simpa using hconf 0 (Nat.succ_pos r)
      rw [submitAttempts_retry author asgn st retry r db h0]
      apply ih
      intro j hj
      cases j with
      | zero =>
          have h := hconf 1 (by omega)
          simpa [Stamp.replaceMicro] using h
      | succ k =>
          have h := hconf (k + 2) (by omega)
          have harg : retry + 1 + (k + 1) = retry + (k + 2) := by omega
          simpa [Stamp.replaceMicro, harg] using h

/-! ## C8: unstamped creation -/

/-- C8: with no timestamp supplied, each call inserts a fresh submission
row unconditionally with the store-assigned id, with no conflict handling
and no retry warnings, so two successive unstamped calls always produce two
distinct records. -/
theorem submit_unstamped_twice (db0 : DB) (asgn author : Int)
    (files1 files2 : List FileRec) (er1 er2 : EvalReq)
    (hid : 0 < db0.nextId) :
    ∃ db1 db2,
      submit_assignment asgn author files1 none er1 db0 = .ok db1 ∧
      submit_assignment asgn author files2 none er2 db1 = .ok db2 ∧
      db1.submissions = db0.submissions ++
        [⟨db0.nextId, author, asgn, none⟩] ∧
      db2.submissions = db0.submissions ++
        [⟨db0.nextId, author, asgn, none⟩,
         ⟨db0.nextId + 1, author, asgn, none⟩] ∧
      db0.nextId ≠ db0.nextId + 1 ∧
      db1.warnings = db0.warnings ∧ db2.warnings = db0.warnings := by
  obtain ⟨db1, e1, s1, n1, w1⟩ := submit_unstamped asgn author files1 er1 db0 hid
  obtain ⟨db2, e2, s2, n2, w2⟩ := submit_unstamped asgn author files2 er2 db1
    (by omega)
  refine ⟨db1, db2, e1, e2, s1, ?_, by omega, w1, by rw [w2, w1]⟩
  rw [s2, s1, n1, List.append_assoc]
  rfl

/-- C8 witness at concrete input. -/
theorem submit_unstamped_twice_witness :
    ∃ db1 db2,
      submit_assignment 3 7 [] none EvalReq.No emptyDB = .ok db1 ∧
      submit_assignment 3 7 [] none EvalReq.No db1 = .ok db2 ∧
      db1.submissions = emptyDB.submissions ++ [⟨emptyDB.nextId, 7, 3, none⟩] ∧
      db2.submissions = emptyDB.submissions ++
        [⟨emptyDB.nextId, 7, 3, none⟩, ⟨emptyDB.nextId + 1, 7, 3, none⟩] ∧
      emptyDB.nextId ≠ emptyDB.nextId + 1 ∧
      db1.warnings = emptyDB.warnings ∧ db2.warnings = emptyDB.warnings :=
  submit_unstamped_twice emptyDB 3 7 [] [] EvalReq.No EvalReq.No (by decide)

/-! ## C4: collision exhaustion -/

/-- C4: when all 10 insertion attempts of a stamped `create` hit an
existing conflicting row, `submit_assignment` raises (the trailing
`assert sid` fails) instead of returning normally, so the submission is
never silently dropped. -/
theorem submit_collision_exhaustion (db0 : DB) (asgn author : Int)
    (files : List FileRec) (ts : LocalDT) (er : EvalReq)
    (hconf : ∀ k < 10, hasConflict db0.submissions author asgn
      (attemptStamp (to_utc_strip ts) k) = true) :
    submit_assignment asgn author files (some ts) er db0 =
      .error ("assertion failed: sid") := by
  have hnone : (submitAttempts author asgn (to_utc_strip ts) 0 10 db0).2 =
      none := by
    apply submitAttempts_all_conflict author asgn 10 0 (to_utc_strip ts) db0
    intro j hj
    have h := hconf j hj
    cases j with
    | zero => simpa [attemptStamp] using h
    | succ k => simpa [attemptStamp] using h
  rcases hpair : submitAttempts author asgn (to_utc_strip ts) 0 10 db0 with
    ⟨db', osid⟩
  rw [hpair] at hnone
  simp only at hnone
  subst hnone
  simp only [submit_assignment, hpair]

/-- A concrete database for the C4 witness: all ten stamps the retry loop
will try for timestamp `⟨0, 0, 0⟩` are already taken. -/
def dbC4 : DB :=
  {emptyDB with
     submissions := (List.range 10).map (fun k => ⟨k + 1, 7, 3, some ⟨0, k⟩⟩),
     nextId := 11}

/-- C4 witness at concrete input. -/
theorem submit_collision_exhaustion_witness :
    submit_assignment 3 7 [] (some ⟨0, 0, 0⟩) EvalReq.No dbC4 =
      .error ("assertion failed: sid") :=
  submit_collision_exhaustion dbC4 3 7 [] ⟨0, 0, 0⟩ EvalReq.No (by decide)

/-! ## C1: two stamped calls with the same timestamp -/

/-- Observable warning count of a `submit_assignment` outcome. -/
def warningsOf : Except String DB → Option Nat
  | .ok db => some db.warnings
  | .error _ => none

/-- Two runs of `submit_assignment` with the same arguments, the second on
the state resulting from the first. -/
def submitTwice (asgn author : Int) (ts : LocalDT) (db : DB) :
    Except String DB :=
  match submit_assignment asgn author [] (some ts) EvalReq.No db with
  | .error e => .error e
  | .ok db1 => submit_assignment asgn author [] (some ts) EvalReq.No db1

/-- C1 counterexample: for the timestamp with microsecond component 1, the
first call succeeds on its initial insertion with no warning, and the
second call succeeds but emits TWO collision warnings (its first retry
sets the microsecond to 1 again, which still collides), not exactly one as
the claim states. -/
theorem submit_twice_not_one_warning :
    warningsOf (submit_assignment 3 7 [] (some ⟨0, 1, 60⟩) EvalReq.No emptyDB)
      = some 0 ∧
    warningsOf (submitTwice 3 7 ⟨0, 1, 60⟩ emptyDB) = some 2 := by
  decide

/-- C1 amended: two stamped calls with identical (author, assignment,
timestamp) against a state with no prior record for that author and
assignment, where the microsecond component of the normalized stamp is not 1,
both succeed and produce two rows with distinct stored stamps; the second
call stores the first stamp with its microsecond component
replaced by the retry counter value 1, and the second call emits exactly
one collision warning.  (When the original microsecond component is 1 the
perturbed stamp collides again, so the loop continues to counter value 2
and one warning is emitted per colliding attempt — see the
counterexample.) -/
theorem submit_twice_collision_perturbs (db0 : DB) (asgn author : Int)
    (ts : LocalDT) (files1 files2 : List FileRec) (er1 er2 : EvalReq)
    (hclean : ∀ r ∈ db0.submissions, ¬(r.author = author ∧ r.asgn = asgn))
    (hid : 0 < db0.nextId)
    (hm : (to_utc_strip ts).micro ≠ 1) :
    ∃ db1 db2,
      submit_assignment asgn author files1 (some ts) er1 db0 = .ok db1 ∧
      submit_assignment asgn author files2 (some ts) er2 db1 = .ok db2 ∧
      db1.submissions = db0.submissions ++
        [⟨db0.nextId, author, asgn, some (to_utc_strip ts)⟩] ∧
      db2.submissions = db0.submissions ++
        [⟨db0.nextId, author, asgn, some (to_utc_strip ts)⟩,
         ⟨db0.nextId + 1, author, asgn, some ⟨(to_utc_strip ts).sec, 1⟩⟩] ∧
      some (to_utc_strip ts) ≠ some (⟨(to_utc_strip ts).sec, 1⟩ : Stamp) ∧
      db1.warnings = db0.warnings ∧
      db2.warnings = db0.warnings + 1 := by
  have hstne : to_utc_strip ts ≠ (⟨(to_utc_strip ts).sec, 1⟩ : Stamp) := by
    intro hcontra
    exact hm (congrArg Stamp.micro hcontra)
  obtain ⟨db1, e1, s1, n1, w1⟩ := submit_stamped_ok asgn author files1 ts er1
    db0 (hasConflict_false_of_clean db0.submissions author asgn _ hclean) hid
  have h0 : hasConflict db1.submissions author asgn (to_utc_strip ts) = true := by
    rw [s1, hasConflict_append]
    have : hasConflict [⟨db0.nextId, author, asgn, some (to_utc_strip ts)⟩]
        author asgn (to_utc_strip ts) = true := by
      simp [hasConflict]
    rw [this, Bool.or_true]
  have h1 : hasConflict db1.submissions author asgn
      ⟨(to_utc_strip ts).sec, 1⟩ = false := by
    rw [s1, hasConflict_append]
    rw [hasConflict_false_of_clean db0.submissions author asgn _ hclean]
    have : hasConflict [⟨db0.nextId, author, asgn, some (to_utc_strip ts)⟩]
        author asgn ⟨(to_utc_strip ts).sec, 1⟩ = false := by
      simp only [hasConflict, List.any_cons, List.any_nil, Bool.or_false,
        decide_eq_false_iff_not]
      rintro ⟨-, -, hs⟩
      exact hstne (Option.some.inj hs)
    rw [this, Bool.or_false]
  obtain ⟨db2, e2, s2, n2, w2⟩ := submit_stamped_second_ok asgn author files2
    ts er2 db1 h0 h1 (by omega)
  refine ⟨db1, db2, e1, e2, s1, ?_, fun hcontra => hstne (Option.some.inj hcontra),
    w1, by rw [w2, w1]⟩
  rw [s2, s1, n1, List.append_assoc]
  rfl

/-- C1 amended witness at concrete input (microsecond component 0). -/
theorem submit_twice_collision_perturbs_witness :
    ∃ db1 db2,
      submit_assignment 3 7 [] (some ⟨5, 0, 60⟩) EvalReq.No emptyDB = .ok db1 ∧
      submit_assignment 3 7 [] (some ⟨5, 0, 60⟩) EvalReq.No db1 = .ok db2 ∧
      db1.submissions = emptyDB.submissions ++
        [⟨emptyDB.nextId, 7, 3, some (to_utc_strip ⟨5, 0, 60⟩)⟩] ∧
      db2.submissions = emptyDB.submissions ++
        [⟨emptyDB.nextId, 7, 3, some (to_utc_strip ⟨5, 0, 60⟩)⟩,
         ⟨emptyDB.nextId + 1, 7, 3, some ⟨(to_utc_strip ⟨5, 0, 60⟩).sec, 1⟩⟩] ∧
      some (to_utc_strip ⟨5, 0, 60⟩) ≠
        some (⟨(to_utc_strip ⟨5, 0, 60⟩).sec, 1⟩ : Stamp) ∧
      db1.warnings = emptyDB.warnings ∧
      db2.warnings = emptyDB.warnings + 1 :=
  submit_twice_collision_perturbs emptyDB 3 7 ⟨5, 0, 60⟩ [] [] EvalReq.No
    EvalReq.No (by simp [emptyDB]) (by decide) (by decide)

/-! ## Poller lemmas -/

theorem sleepTicks_le (oneshot : Bool) (sig : Nat → Bool) :
    ∀ n t, (sleepTicks oneshot sig n t).1 ≤ n := by
  intro n
  induction n with
  | zero => intro t; exact Nat.le_refl 0
  | succ m ih =>
      intro t
      rw [sleepTicks]
      split
      · exact Nat.zero_le _
      · simpa using Nat.succ_le_succ (ih (t + 1))

theorem sleepTicks_full (sig : Nat → Bool) :
    ∀ n t, (sleepTicks false sig n t).2 = false →
      (sleepTicks false sig n t).1 = n := by
  intro n
  induction n with
  | zero => intro t _; rfl
  | succ m ih =>
      intro t h
      cases hsig : sig t with
      | true =>
          rw [sleepTicks] at h
          simp [hsig] at h
      | false =>
          rw [sleepTicks] at h ⊢
          simp only [hsig, Bool.false_or, Bool.or_false, if_neg Bool.false_ne_true] at h ⊢
          rw [ih (t + 1) h]

theorem sleepTicks_stops_by (sig : Nat → Bool) (ts : Nat)
    (hts : sig ts = true) :
    ∀ n t, t ≤ ts → ts < t + n →
      ∃ k, sleepTicks false sig n t = (k, true) ∧ t + k ≤ ts := by
  intro n
  induction n with
  | zero => intro t h1 h2; omega
  | succ m ih =>
      intro t h1 h2
      cases hsig : sig t with
      | true =>
          refine ⟨0, ?_, by omega⟩
          rw [sleepTicks]
          simp [hsig]
      | false =>
          have htlt : t < ts := by
            rcases Nat.lt_or_ge t ts with h | h
            · exact h
            · have heq : t = ts := by omega
              rw [heq, hts] at hsig
              cases hsig
          obtain ⟨k, hk, hkle⟩ := ih (t + 1) (by omega) (by omega)
          refine ⟨k + 1, ?_, by omega⟩
          rw [sleepTicks]
          simp only [hsig, Bool.or_false, if_neg Bool.false_ne_true, hk]

/-! ## C5: oneshot runs exactly one cycle -/

/-- C5: with the oneshot flag set, the poll callback runs exactly once and
the scheduler returns immediately after the callback, at tick
`t + elapsedAt cycle`, however large the elapsed time of the callback was
relative to the configured interval. -/
theorem poller_oneshot_once (sig : Nat → Bool) (rawAt : Nat → RawVal)
    (elapsedAt : Nat → Nat) (fuel cycle t polls : Nat) (i : Int)
    (hint : interval (rawAt cycle) = .ok i) :
    pollerAux true sig rawAt elapsedAt (fuel + 1) cycle t polls =
      .stopped (polls + 1) (t + elapsedAt cycle) := by
  simp only [pollerAux, hint]
  cases hsf : (i - (elapsedAt cycle : Int)).toNat with
  | zero => simp [sleepTicks]
  | succ n => simp [sleepTicks]

/-- C5 witness: interval 5, callback taking 7 ticks, one unit of fuel. -/
theorem poller_oneshot_once_witness :
    pollerAux true (fun _ => false) (fun _ => RawVal.int 5) (fun _ => 7)
      1 0 0 0 = .stopped 1 7 :=
  poller_oneshot_once (fun _ => false) (fun _ => RawVal.int 5) (fun _ => 7)
    0 0 0 0 5 rfl

/-! ## C6: cancellation during the sleep phase -/

/-- C6: if the persistent cancellation flag becomes observable at tick `ts`
inside the sleep phase of the current cycle (after the callback finished at
`t + elapsedAt cycle` and no later than the end of the sleep phase), the
scheduler returns within one tick of `ts`, reporting exactly the current
completed callback of the current cycle (`polls + 1`): the running callback is never
aborted and no new cycle begins. -/
theorem poller_cancel_during_sleep (sig : Nat → Bool) (rawAt : Nat → RawVal)
    (elapsedAt : Nat → Nat) (fuel cycle t polls ts : Nat) (i : Int)
    (hmono : SigPersistent sig)
    (hint : interval (rawAt cycle) = .ok i)
    (hts : sig ts = true)
    (hlo : t + elapsedAt cycle ≤ ts)
    (hhi : ts ≤ t + elapsedAt cycle + (i - (elapsedAt cycle : Int)).toNat) :
    ∃ tstop, pollerAux false sig rawAt elapsedAt (fuel + 1) cycle t polls =
        .stopped (polls + 1) tstop ∧ tstop ≤ ts + 1 := by
  rcases Nat.lt_or_ge ts (t + elapsedAt cycle + (i - (elapsedAt cycle : Int)).toNat)
    with hA | hB
  · obtain ⟨k, hk, hkle⟩ := sleepTicks_stops_by sig ts hts
      ((i - (elapsedAt cycle : Int)).toNat) (t + elapsedAt cycle) hlo hA
    refine ⟨t + elapsedAt cycle + k, ?_, by omega⟩
    simp only [pollerAux, hint, hk]
    simp
  · have hts_eq : ts = t + elapsedAt cycle + (i - (elapsedAt cycle : Int)).toNat := by
      omega
    cases hp2 : (sleepTicks false sig ((i - (elapsedAt cycle : Int)).toNat)
        (t + elapsedAt cycle)).2 with
    | true =>
        have hle := sleepTicks_le false sig
          ((i - (elapsedAt cycle : Int)).toNat) (t + elapsedAt cycle)
        refine ⟨t + elapsedAt cycle +
          (sleepTicks false sig ((i - (elapsedAt cycle : Int)).toNat)
            (t + elapsedAt cycle)).1, ?_, by omega⟩
        simp only [pollerAux, hint, hp2, if_true]
    | false =>
        have hfull := sleepTicks_full sig
          ((i - (elapsedAt cycle : Int)).toNat) (t + elapsedAt cycle) hp2
        have hsigT : sig (t + elapsedAt cycle +
            (i - (elapsedAt cycle : Int)).toNat) = true :=
          hmono ts _ (by omega) hts
        refine ⟨t + elapsedAt cycle + (i - (elapsedAt cycle : Int)).toNat,
          ?_, by omega⟩
        simp only [pollerAux, hint, hp2, hfull, hsigT, Bool.true_or,
          if_true, Bool.false_ne_true, if_neg]
        simp [hfull]

/-- C6 witness: interval 5, callback of 1 tick, cancellation raised at tick
3 during the sleep phase of the first cycle. -/
theorem poller_cancel_during_sleep_witness :
    ∃ tstop, pollerAux false (fun u => decide (3 ≤ u))
        (fun _ => RawVal.int 5) (fun _ => 1) 1 0 0 0 =
        .stopped 1 tstop ∧ tstop ≤ 3 + 1 :=
  poller_cancel_during_sleep (fun u => decide (3 ≤ u))
    (fun _ => RawVal.int 5) (fun _ => 1) 0 0 0 0 3 5
    (fun a b hab ha => by
      simp only [decide_eq_true_eq] at ha ⊢
      omega)
    rfl (by decide) (by decide) (by decide)

/-! ## C9: malformed interval configuration -/

/-- C9: a string that the interval regex rejects, or a raw value that is
neither an integer nor a string, makes `BaseConfig.interval` raise, and
the exception surfaces at the configuration-load point of the cycle: the
run ends in `err` with the poll-callback count and the clock unchanged, so
the error is never deferred into the middle of the cycle. -/
theorem interval_error_at_load (oneshot : Bool) (sig : Nat → Bool)
    (rawAt : Nat → RawVal) (elapsedAt : Nat → Nat)
    (fuel cycle t polls : Nat) :
    (∀ s : String, parseInterval s = none →
      interval (RawVal.str s) =
        .error ("Invalid interval specification: " ++ s)) ∧
    interval RawVal.other = .error ("Not an interval") ∧
    (∀ msg : String, interval (rawAt cycle) = .error msg →
      pollerAux oneshot sig rawAt elapsedAt (fuel + 1) cycle t polls =
        .err msg polls t) := by
  refine ⟨?_, rfl, ?_⟩
  · intro s hp
    simp [interval, hp]
  · intro msg hmsg
    simp only [pollerAux, hmsg]

/-- C9 witness: the malformed interval string 5x (no unit suffix is a
letter of the regex) is rejected at the load point of the first cycle. -/
theorem interval_error_at_load_witness :
    interval (RawVal.str ("5x")) =
      .error ("Invalid interval specification: " ++ "5x") ∧
    pollerAux false (fun _ => false) (fun _ => RawVal.str ("5x"))
      (fun _ => 9) 1 0 0 0 =
      .err ("Invalid interval specification: " ++ "5x") 0 0 :=
  ⟨(interval_error_at_load false (fun _ => false) (fun _ => RawVal.str ("5x"))
      (fun _ => 9) 0 0 0 0).1 ("5x") (by decide),
   (interval_error_at_load false (fun _ => false) (fun _ => RawVal.str ("5x"))
      (fun _ => 9) 0 0 0 0).2.2 ("Invalid interval specification: " ++ "5x")
     ((interval_error_at_load false (fun _ => false) (fun _ => RawVal.str ("5x"))
        (fun _ => 9) 0 0 0 0).1 ("5x") (by decide))⟩

end Frag

